import Mathlib

/-!
Verification of the Nakama-Edgegap fleet manager's instance lifecycle and
seat-reservation engine.

The definitions below are a shallow embedding of the Go sources:
  - internal/helpers/slice.go        (AppendIfNotExists, RemoveElements, MergeMaps)
  - pkg/fleetmanager/models.go       (EdgegapInstanceInfo, event messages, status constants)
  - pkg/fleetmanager/storage.go      (ExtractEdgegapInstance, GetAvailableSeat, SyncInstance,
                                      createDbInstance, getDbInstance, updateDbInstance)
  - pkg/fleetmanager/fleet_manager.go (Create, Join, Update)
  - the event manager                (handleDeploymentEvent, handleConnectionEvent,
                                      handleInstanceEvent)

Modelling conventions:
  - Go machine integers are modelled as Lean Int (the counts involved are far from
    64-bit overflow).
  - The Nakama storage substrate is modelled as an association list keyed by
    instance id; a Nakama StorageWrite is a prepend (lookup finds the newest
    record), a StorageRead that finds nothing yields none together with a nil
    error, exactly as the Go runtime behaves.
  - Go nil pointers are modelled as Option; dereferencing none is a distinguished
    crash outcome, mirroring a Go nil-pointer panic.
  - The JSON round-trip through metadata is assumed faithful: the reserved
    "edgegap" metadata key is held in a dedicated Option field of the instance
    record and the remaining free-form metadata keys in an association list.
  - Timestamps (time.Now) are passed in explicitly as Nat parameters.
  - External collaborators (account lookups, the Edgegap HTTP API, the storage
    write success) enter as parameters holding their outcome.
-/

namespace NakamaEdgegap

/-! ## Status constants (storage.go, models.go) -/

def EdgegapStatusRequested : String := "REQUESTED"

def EdgegapStatusRunning : String := "RUNNING"

def EdgegapStatusReady : String := "READY"

def EdgegapStatusStopping : String := "STOPPING"

def EdgegapStatusError : String := "ERROR"

def EdgegapStatusUnknown : String := "UNKNOWN"

def DeploymentStatusReady : String := "Status.READY"

def DeploymentStatusError : String := "Status.ERROR"

def InstanceEventStateReady : String := "READY"

def InstanceEventStateError : String := "ERROR"

def InstanceEventStateStop : String := "STOP"

/-! ## Helpers (internal/helpers/slice.go) -/

/-- AppendIfNotExists adds an item to the slice if it does not already exist,
returning the original slice when the item is present (slice.go). -/
def AppendIfNotExists (slice : List String) (item : String) : List String :=
  if item ∈ slice then slice else slice ++ [item]

/-- RemoveElements removes all occurrences of elements of the remove slice from
the source slice (slice.go); membership in the Go removeMap set is membership
in the remove list. -/
def RemoveElements (source remove : List String) : List String :=
  source.filter (fun s => decide (s ∉ remove))

/-- MergeMaps merges two maps; on a key collision the second map's value wins
(slice.go). Modelled on association lists: the entries of the first map whose
keys are not bound in the second, then the second map's entries. -/
def MergeMaps (m1 m2 : List (String × String)) : List (String × String) :=
  m1.filter (fun p => decide (∀ q ∈ m2, q.1 ≠ p.1)) ++ m2

/-! ## Data model (models.go, runtime.InstanceInfo) -/

/-- ConnectionInfo is the network endpoint of a running deployment
(runtime.ConnectionInfo). -/
structure ConnectionInfo where
  ipAddress : String
  dnsName : String
  port : Int
deriving Repr, DecidableEq

/-- EdgegapInstanceInfo is the seat-ledger record embedded in the instance
metadata under the reserved key (models.go). -/
structure EdgegapInstanceInfo where
  maxPlayers : Int
  availableSeats : Int
  callbackId : String
  reservations : List String
  reservationsCount : Int
  reservationsUpdatedAt : Nat
  connections : List String
deriving Repr, DecidableEq

/-- InstanceInfo is a persisted instance record (runtime.InstanceInfo). The
reserved metadata key holding the ledger is kept as the dedicated field
edgegap (none models a metadata bag without that key); the free-form rest of
the metadata bag is metadataOther. -/
structure InstanceInfo where
  id : String
  connectionInfo : Option ConnectionInfo
  createTime : Nat
  playerCount : Int
  status : String
  edgegap : Option EdgegapInstanceInfo
  metadataOther : List (String × String)
deriving Repr, DecidableEq

/-! ## Storage layer (storage.go) -/

/-- Store models the Nakama collection of instance records: an association list
keyed by the storage key, newest binding first. -/
abbrev Store := List (String × InstanceInfo)

/-- getDbInstance retrieves a single instance by ID (storage.go); a missing
record yields none (the Go StorageRead returns an empty object list and a nil
error in that case). -/
def getDbInstance (store : Store) (id : String) : Option InstanceInfo :=
  (store.find? (fun p => decide (p.1 = id))).map (fun p => p.2)

/-- storePut models a Nakama StorageWrite of one record: the new binding
shadows any older binding for the same key. -/
def storePut (store : Store) (id : String) (inst : InstanceInfo) : Store :=
  (id, inst) :: store

/-- ExtractEdgegapInstance extracts the ledger from an instance's metadata,
failing when the reserved key is absent (storage.go). -/
def ExtractEdgegapInstance (inst : InstanceInfo) : Except String EdgegapInstanceInfo :=
  match inst.edgegap with
  | none => Except.error "edgegap key not in metadata"
  | some e => Except.ok e

/-- GetAvailableSeat calculates the number of available seats in an instance
(storage.go): the capacity formula when maxPlayers is strictly positive,
otherwise -1 (the Go comment reads: return -1 if maxPlayers is not set). -/
def GetAvailableSeat (inst : InstanceInfo) : Except String Int :=
  match ExtractEdgegapInstance inst with
  | Except.error e => Except.error e
  | Except.ok edgegapInstance =>
    if edgegapInstance.maxPlayers > 0 then
      Except.ok (edgegapInstance.maxPlayers - edgegapInstance.reservations.length
        - edgegapInstance.connections.length)
    else
      Except.ok (-1)

/-- SyncInstance recomputes the derived fields before persistence (storage.go):
playerCount from the ledger's connections, availableSeats via GetAvailableSeat,
reservationsCount from the reservations, writing the ledger back into the
metadata. -/
def SyncInstance (inst : InstanceInfo) : Except String InstanceInfo :=
  match ExtractEdgegapInstance inst with
  | Except.error e => Except.error e
  | Except.ok edgegapInstance =>
    match GetAvailableSeat inst with
    | Except.error e => Except.error e
    | Except.ok availableSeat =>
      Except.ok { inst with
        playerCount := edgegapInstance.connections.length,
        edgegap := some { edgegapInstance with
          availableSeats := availableSeat,
          reservationsCount := edgegapInstance.reservations.length } }

/-- createDbInstance creates and stores a new instance record (storage.go):
a fresh REQUESTED instance whose ledger reserves the given user ids, synced
immediately before the write. Returns the written store and the record. -/
def createDbInstance (now : Nat) (store : Store) (id : String) (maxPlayers : Int)
    (userIds : List String) (callbackId : String)
    (metadataOther : List (String × String)) : Except String (Store × InstanceInfo) :=
  let edgegap : EdgegapInstanceInfo :=
    { maxPlayers := maxPlayers
      availableSeats := 0
      callbackId := callbackId
      reservations := userIds
      reservationsCount := 0
      reservationsUpdatedAt := now
      connections := [] }
  let inst : InstanceInfo :=
    { id := id
      connectionInfo := none
      createTime := now
      playerCount := 0
      status := EdgegapStatusRequested
      edgegap := some edgegap
      metadataOther := metadataOther }
  match SyncInstance inst with
  | Except.error e => Except.error e
  | Except.ok inst1 => Except.ok (storePut store id inst1, inst1)

/-- updateDbInstance updates an existing instance record (storage.go): syncs
the derived fields, then writes the record under its own id. Returns the
written store and the synced record (the Go code mutates the record in
place). -/
def updateDbInstance (store : Store) (inst : InstanceInfo) :
    Except String (Store × InstanceInfo) :=
  match SyncInstance inst with
  | Except.error e => Except.error e
  | Except.ok inst1 => Except.ok (storePut store inst1.id inst1, inst1)

/-! ## Callback registry -/

/-- FmCreateStatus is the terminal outcome delivered to a create callback
(runtime.CreateSuccess, runtime.CreateTimeout, runtime.CreateError). -/
inductive FmCreateStatus where
  | success
  | timeout
  | createError
deriving Repr, DecidableEq

/-- Modelled from the spec: the FmCallbackHandler implementation lives in the
Nakama runtime, outside this repository; spec section 4.3 specifies it as a
registry holding exactly one handler per correlation id that invokes the
handler exactly once and then discards it, resolving an unknown or
already-resolved id being a safe no-op. The state is the set of pending ids
plus the log of performed handler invocations. -/
structure CallbackRegistry where
  pending : List String
  invocations : List (String × FmCreateStatus)
deriving Repr, DecidableEq

/-- Modelled from the spec: SetCallback stores a handler for the id (spec
section 4.3, register). -/
def SetCallback (reg : CallbackRegistry) (id : String) : CallbackRegistry :=
  { reg with pending := id :: reg.pending }

/-- Modelled from the spec: InvokeCallback resolves the id, invoking its
handler exactly once and discarding it; an unknown or already-resolved id is
a safe no-op (spec section 4.3, resolve). -/
def InvokeCallback (reg : CallbackRegistry) (id : String) (st : FmCreateStatus) :
    CallbackRegistry :=
  if id ∈ reg.pending then
    { pending := reg.pending.filter (fun s => decide (s ≠ id)),
      invocations := reg.invocations ++ [(id, st)] }
  else
    reg

/-- invocationsFor counts how many times the handler registered under the id
has actually been invoked. -/
def invocationsFor (reg : CallbackRegistry) (id : String) : Nat :=
  (reg.invocations.filter (fun p => decide (p.1 = id))).length

/-- pendingCount counts the registry's pending handlers for the id. -/
def pendingCount (reg : CallbackRegistry) (id : String) : Nat :=
  (reg.pending.filter (fun s => decide (s = id))).length

/-! ## Inbound event messages (models.go) -/

/-- EdgegapDeploymentStatus is the fabric's deployment-status webhook payload
(models.go); ports maps a port name to its external port number. -/
structure EdgegapDeploymentStatus where
  requestId : String
  fqdn : String
  publicIp : String
  currentStatus : String
  ports : List (String × Int)
deriving Repr, DecidableEq

/-- portExternal looks a port name up in the reported ports; a missing name
yields the Go zero value 0 (a Go map read of an absent key). -/
def portExternal (ports : List (String × Int)) (name : String) : Int :=
  match ports.find? (fun p => decide (p.1 = name)) with
  | some p => p.2
  | none => 0

/-- ConnectionEventMessage is the instance's connection report (models.go):
the complete current connection set. -/
structure ConnectionEventMessage where
  instanceId : String
  connections : List String
deriving Repr, DecidableEq

/-- InstanceEventMessage is the instance-action report (models.go). Its open
metadata bag is split like the instance record's: the reserved ledger key as
an Option (merged with second-map precedence) and the free-form rest. -/
structure InstanceEventMessage where
  instanceId : String
  action : String
  message : String
  metadataEdgegap : Option EdgegapInstanceInfo
  metadataOther : List (String × String)
deriving Repr, DecidableEq

/-! ## Event manager -/

/-- asciiUpperChar maps an ASCII lowercase letter to its uppercase form, any
other character to itself. -/
def asciiUpperChar (c : Char) : Char :=
  if 97 ≤ c.toNat ∧ c.toNat ≤ 122 then Char.ofNat (c.toNat - 32) else c

/-- asciiUpper models Go's strings.ToUpper for the event protocol's action
strings (pure ASCII): it uppercases each character. -/
def asciiUpper (s : String) : String :=
  String.mk (s.data.map asciiUpperChar)

/-- deployBadState is the shared badState block of the deployment handler:
for every non-READY deployment status the source extracts the ledger,
resolves the create callback with an error, and then persists the
status-mutated record. -/
def deployBadState (store : Store) (reg : CallbackRegistry) (inst1 : InstanceInfo) :
    Except String String × Store × CallbackRegistry :=
  match ExtractEdgegapInstance inst1 with
  | Except.error e => (Except.error e, store, reg)
  | Except.ok ei =>
    let reg1 := InvokeCallback reg ei.callbackId FmCreateStatus.createError
    match updateDbInstance store inst1 with
    | Except.error e => (Except.error e, store, reg1)
    | Except.ok r => (Except.ok "ok", r.1, reg1)

/-- handleDeploymentEvent processes a fabric deployment-status report: READY
turns the instance RUNNING, records the network endpoint and persists; ERROR
turns it ERROR and anything else turns it UNKNOWN, both through the badState
block (the source sets a badState flag in the status switch, true in every
case but READY, and runs the callback-error-then-persist block when it is
set). Returns the handler result with the store and registry left behind. -/
def handleDeploymentEvent (portName : String) (store : Store) (reg : CallbackRegistry)
    (deployment : EdgegapDeploymentStatus) :
    Except String String × Store × CallbackRegistry :=
  match getDbInstance store deployment.requestId with
  | none => (Except.error ("no instance found with requestId " ++ deployment.requestId),
      store, reg)
  | some inst =>
    if deployment.currentStatus = DeploymentStatusReady then
      match updateDbInstance store { inst with
          status := EdgegapStatusRunning
          connectionInfo := some
            { ipAddress := deployment.publicIp
              dnsName := deployment.fqdn
              port := portExternal deployment.ports portName } } with
      | Except.error e => (Except.error e, store, reg)
      | Except.ok r => (Except.ok "ok", r.1, reg)
    else if deployment.currentStatus = DeploymentStatusError then
      deployBadState store reg { inst with status := EdgegapStatusError }
    else
      deployBadState store reg { inst with status := EdgegapStatusUnknown }

/-- handleConnectionEvent processes an instance connection report: the
report's connection list replaces the ledger's connections wholesale, every
reported id is removed from the reservations, the reservation timestamp is
stamped, and the record is synced and persisted. -/
def handleConnectionEvent (now : Nat) (store : Store)
    (connectionEvent : ConnectionEventMessage) : Except String String × Store :=
  match getDbInstance store connectionEvent.instanceId with
  | none => (Except.error ("no instance found with instanceId "
      ++ connectionEvent.instanceId), store)
  | some inst =>
    match ExtractEdgegapInstance inst with
    | Except.error e => (Except.error e, store)
    | Except.ok edgegapInstance =>
      let newReservations :=
        RemoveElements edgegapInstance.reservations connectionEvent.connections
      let inst1 := { inst with
        edgegap := some { edgegapInstance with
          reservations := newReservations
          connections := connectionEvent.connections
          reservationsUpdatedAt := now } }
      match updateDbInstance store inst1 with
      | Except.error e => (Except.error e, store)
      | Except.ok r => (Except.ok "ok", r.1)

/-- handleInstanceEvent processes an instance-action report: READY merges the
instance-supplied metadata, resolves the create callback with success and
persists; STOP persists the STOPPING status (the subsequent fabric stop
request is external I/O outside this model); ERROR and unknown actions
persist ERROR and UNKNOWN respectively. -/
def handleInstanceEvent (store : Store) (reg : CallbackRegistry)
    (instanceEvent : InstanceEventMessage) :
    Except String String × Store × CallbackRegistry :=
  match getDbInstance store instanceEvent.instanceId with
  | none => (Except.error ("no instance found with instanceId "
      ++ instanceEvent.instanceId), store, reg)
  | some inst =>
    let action := asciiUpper instanceEvent.action
    if action = InstanceEventStateReady then
      let inst1 := { inst with
        status := EdgegapStatusReady
        metadataOther := MergeMaps inst.metadataOther instanceEvent.metadataOther
        edgegap := match instanceEvent.metadataEdgegap with
          | some e => some e
          | none => inst.edgegap }
      match ExtractEdgegapInstance inst1 with
      | Except.error e => (Except.error e, store, reg)
      | Except.ok ei =>
        let reg1 := InvokeCallback reg ei.callbackId FmCreateStatus.success
        match updateDbInstance store inst1 with
        | Except.error e => (Except.error e, store, reg1)
        | Except.ok r => (Except.ok "ok", r.1, reg1)
    else if action = InstanceEventStateStop then
      match updateDbInstance store { inst with status := EdgegapStatusStopping } with
      | Except.error e => (Except.error e, store, reg)
      | Except.ok r => (Except.ok "ok", r.1, reg)
    else if action = InstanceEventStateError then
      match updateDbInstance store { inst with status := EdgegapStatusError } with
      | Except.error e => (Except.error e, store, reg)
      | Except.ok r => (Except.ok "ok", r.1, reg)
    else
      match updateDbInstance store { inst with status := EdgegapStatusUnknown } with
      | Except.error e => (Except.error e, store, reg)
      | Except.ok r => (Except.ok "ok", r.1, reg)

/-- InboundEvent is one inbound report, tagged by its channel; a connection
report carries the timestamp its application stamps. -/
inductive InboundEvent where
  | deployment (d : EdgegapDeploymentStatus)
  | connection (c : ConnectionEventMessage) (now : Nat)
  | instanceAct (i : InstanceEventMessage)
deriving Repr, DecidableEq

/-- stepEvent routes one inbound event to its handler, keeping the store and
registry the handler leaves behind (a handler error leaves exactly the state
the handler had produced up to the failure, as in the source). -/
def stepEvent (portName : String) (s : Store × CallbackRegistry) (ev : InboundEvent) :
    Store × CallbackRegistry :=
  match ev with
  | InboundEvent.deployment d => (handleDeploymentEvent portName s.1 s.2 d).2
  | InboundEvent.connection c now => ((handleConnectionEvent now s.1 c).2, s.2)
  | InboundEvent.instanceAct i => (handleInstanceEvent s.1 s.2 i).2

/-- runEvents processes a sequence of inbound events in order. -/
def runEvents (portName : String) (s : Store × CallbackRegistry)
    (evs : List InboundEvent) : Store × CallbackRegistry :=
  evs.foldl (stepEvent portName) s

/-! ## Fleet manager operations (fleet_manager.go) -/

/-- JoinResult is the outcome of a Join call: the join info carrying the
instance record, an error, or a Go nil-pointer panic. -/
inductive JoinResult where
  | ok (info : InstanceInfo)
  | err (msg : String)
  | nilDeref
deriving Repr, DecidableEq

/-- JoinResult.isOk recognizes the successful outcome. -/
def JoinResult.isOk : JoinResult → Bool
  | JoinResult.ok _ => true
  | _ => false

/-- Join allows users to join an existing instance session
(fleet_manager.go). A missing record comes back from the storage read as a
nil instance with a nil error, so the source's instance-not-found branch is
not taken and ExtractEdgegapInstance dereferences the nil pointer: that path
is the nilDeref outcome. With maxPlayers negative the join succeeds without
touching the ledger; otherwise the capacity check adds the raw length of the
request's user-id list (duplicates included) to the current player count and
reservation count, and on success each id is appended to the reservations
with de-duplication before the record is synced and persisted. -/
def Join (store : Store) (id : String) (userIds : List String) :
    JoinResult × Store :=
  if id = "" then
    (JoinResult.err "expects id to be a valid InstanceSessionId", store)
  else
    let instOpt := getDbInstance store id
    if userIds.length < 1 then
      (JoinResult.err "expects userIds to have at least one valid user id", store)
    else
      match instOpt with
      | none => (JoinResult.nilDeref, store)
      | some inst =>
        match ExtractEdgegapInstance inst with
        | Except.error _ => (JoinResult.err "error extracting Edgegap instance", store)
        | Except.ok edgegapInstance =>
          if edgegapInstance.maxPlayers < 0 then
            (JoinResult.ok inst, store)
          else if inst.playerCount + edgegapInstance.reservations.length
              + userIds.length > edgegapInstance.maxPlayers then
            (JoinResult.err "max players reservation limit reached", store)
          else
            let inst1 := { inst with
              edgegap := some { edgegapInstance with
                reservations :=
                  userIds.foldl AppendIfNotExists edgegapInstance.reservations } }
            match updateDbInstance store inst1 with
            | Except.error _ =>
              (JoinResult.err "error updating db instance session", store)
            | Except.ok r => (JoinResult.ok r.2, r.1)

/-- UpdateResult is the outcome of an Update call. -/
inductive UpdateResult where
  | ok
  | err (msg : String)
  | nilDeref
deriving Repr, DecidableEq

/-- Update modifies an instance session's player count (fleet_manager.go): it
overwrites playerCount on the loaded record and persists through
updateDbInstance (whose SyncInstance recomputes the derived fields before the
write). A missing record would be dereferenced as a nil pointer. -/
def Update (store : Store) (id : String) (playerCount : Int) :
    UpdateResult × Store :=
  match getDbInstance store id with
  | none => (UpdateResult.nilDeref, store)
  | some inst =>
    match updateDbInstance store { inst with playerCount := playerCount } with
    | Except.error e => (UpdateResult.err e, store)
    | Except.ok r => (UpdateResult.ok, r.1)

/-- EdgegapBetaDeployment is the fabric's create-deployment response
(models.go); a non-empty requestId signals acceptance. -/
structure EdgegapBetaDeployment where
  requestId : String
  message : String
deriving Repr, DecidableEq

/-- CreateResult is the synchronous outcome of a Create call. -/
inductive CreateResult where
  | ok
  | err (msg : String)
deriving Repr, DecidableEq

/-- Create provisions a new deployment (fleet_manager.go): it registers the
callback, resolves the participants' IP addresses (an external account
lookup whose outcome is the userIpsResult parameter), falls back to the
caller's IP from the request context (callerIp, none when the context has no
client-IP string), requests the deployment from the fabric (outcome
deploymentResult), and persists the new REQUESTED record (persistOk models
the external storage write's success). Each failure branch except the
missing-caller-IP fallback resolves the callback with an error before
returning; that fallback returns ErrInvalidInput with the callback still
registered. -/
def Create (now : Nat) (store : Store) (reg : CallbackRegistry) (maxPlayers : Int)
    (userIds : List String) (metadataOther : List (String × String))
    (callbackId : String) (userIpsResult : Except String (List String))
    (callerIp : Option String) (deploymentResult : Except String EdgegapBetaDeployment)
    (persistOk : Bool) : CreateResult × Store × CallbackRegistry :=
  let reg0 := SetCallback reg callbackId
  match userIpsResult with
  | Except.error e =>
    (CreateResult.err e, store,
      InvokeCallback reg0 callbackId FmCreateStatus.createError)
  | Except.ok userIps =>
    if userIps.isEmpty ∧ callerIp.isNone then
      (CreateResult.err "input is invalid", store, reg0)
    else
      match deploymentResult with
      | Except.error e =>
        (CreateResult.err e, store,
          InvokeCallback reg0 callbackId FmCreateStatus.createError)
      | Except.ok deployment =>
        if deployment.requestId = "" then
          (CreateResult.err "failed to create deployment", store,
            InvokeCallback reg0 callbackId FmCreateStatus.createError)
        else if persistOk = false then
          (CreateResult.err "error while creating Instance Session", store,
            InvokeCallback reg0 callbackId FmCreateStatus.createError)
        else
          match createDbInstance now store deployment.requestId maxPlayers userIds
              callbackId metadataOther with
          | Except.error e =>
            (CreateResult.err e, store,
              InvokeCallback reg0 callbackId FmCreateStatus.createError)
          | Except.ok r => (CreateResult.ok, r.1, reg0)

/-! ## Observation helpers -/

/-- storedReservations reads the persisted ledger's reservations at a key. -/
def storedReservations (store : Store) (id : String) : Option (List String) :=
  (getDbInstance store id).bind (fun i => i.edgegap.map (fun e => e.reservations))

/-- storedConnections reads the persisted ledger's connections at a key. -/
def storedConnections (store : Store) (id : String) : Option (List String) :=
  (getDbInstance store id).bind (fun i => i.edgegap.map (fun e => e.connections))

/-- storedPlayerCount reads the persisted record's playerCount at a key. -/
def storedPlayerCount (store : Store) (id : String) : Option Int :=
  (getDbInstance store id).map (fun i => i.playerCount)

/-- storedStatus reads the persisted record's status at a key. -/
def storedStatus (store : Store) (id : String) : Option String :=
  (getDbInstance store id).map (fun i => i.status)

/-- seatFormulaOk checks the (corrected) derived-seat invariant on a record:
when the ledger is present, availableSeats is the capacity formula for a
strictly positive maxPlayers and -1 otherwise. -/
def seatFormulaOk (inst : InstanceInfo) : Bool :=
  match inst.edgegap with
  | none => true
  | some e =>
    if e.maxPlayers > 0 then
      e.availableSeats = e.maxPlayers - e.reservations.length - e.connections.length
    else
      e.availableSeats = -1

/-- distinctNewCount counts the distinct ids of a join request that are not
already reserved; stated from the claim's words (number of DISTINCT new ids)
for comparison against the source's capacity check. -/
def distinctNewCount (reservations userIds : List String) : Nat :=
  (userIds.eraseDups.filter (fun u => decide (u ∉ reservations))).length

/-- claimedJoinCapacityOk is the seat bound the claim asserts for Join,
stated from the claim's words: the join is said to succeed whenever the
player count plus the existing reservations plus the distinct new ids fit
within maxPlayers. -/
def claimedJoinCapacityOk (playerCount maxPlayers : Int)
    (reservations userIds : List String) : Bool :=
  playerCount + reservations.length + distinctNewCount reservations userIds ≤ maxPlayers

/-- mkLedger builds a ledger record for concrete test stores. -/
def mkLedger (mp seats : Int) (cb : String) (res conns : List String) :
    EdgegapInstanceInfo :=
  { maxPlayers := mp
    availableSeats := seats
    callbackId := cb
    reservations := res
    reservationsCount := res.length
    reservationsUpdatedAt := 0
    connections := conns }

/-- mkInstance builds an instance record for concrete test stores. -/
def mkInstance (id status : String) (pc : Int) (e : EdgegapInstanceInfo) :
    InstanceInfo :=
  { id := id
    connectionInfo := none
    createTime := 0
    playerCount := pc
    status := status
    edgegap := some e
    metadataOther := [] }

/-! ## Characterization lemmas -/

/-- syncedRecord is the explicit value SyncInstance produces from a record
whose ledger is e (established by syncInstance_some below). -/
def syncedRecord (inst : InstanceInfo) (e : EdgegapInstanceInfo) : InstanceInfo :=
  { inst with
    playerCount := e.connections.length
    edgegap := some { e with
      availableSeats :=
        if e.maxPlayers > 0 then
          e.maxPlayers - e.reservations.length - e.connections.length
        else
          -1
      reservationsCount := e.reservations.length } }

/-- connApplied is the ledger after a connection report: full replacement of
the connections, reported ids cleared from the reservations, timestamp
stamped (the mutation handleConnectionEvent performs before syncing). -/
def connApplied (e : EdgegapInstanceInfo) (conns : List String) (now : Nat) :
    EdgegapInstanceInfo :=
  { e with
    reservations := RemoveElements e.reservations conns
    connections := conns
    reservationsUpdatedAt := now }

/-- withLedger swaps a record's ledger. -/
def withLedger (inst : InstanceInfo) (e : EdgegapInstanceInfo) : InstanceInfo :=
  { inst with edgegap := some e }

theorem syncInstance_some (inst : InstanceInfo) (e : EdgegapInstanceInfo)
    (he : inst.edgegap = some e) :
    SyncInstance inst = Except.ok (syncedRecord inst e) := by
  by_cases hmp : e.maxPlayers > 0 <;>
    simp [SyncInstance, ExtractEdgegapInstance, GetAvailableSeat, he, syncedRecord, hmp]

theorem syncInstance_none (inst : InstanceInfo) (he : inst.edgegap = none) :
    SyncInstance inst = Except.error "edgegap key not in metadata" := by
  simp [SyncInstance, ExtractEdgegapInstance, he]

theorem syncedRecord_id (inst : InstanceInfo) (e : EdgegapInstanceInfo) :
    (syncedRecord inst e).id = inst.id := rfl

theorem updateDbInstance_some (store : Store) (inst : InstanceInfo)
    (e : EdgegapInstanceInfo) (he : inst.edgegap = some e) :
    updateDbInstance store inst =
      Except.ok (storePut store inst.id (syncedRecord inst e), syncedRecord inst e) := by
  simp [updateDbInstance, syncInstance_some inst e he, syncedRecord_id]

theorem seatFormulaOk_syncedRecord (inst : InstanceInfo) (e : EdgegapInstanceInfo) :
    seatFormulaOk (syncedRecord inst e) = true := by
  by_cases hmp : e.maxPlayers > 0 <;> simp [seatFormulaOk, syncedRecord, hmp]

theorem getDbInstance_storePut_same (store : Store) (k : String) (i : InstanceInfo) :
    getDbInstance (storePut store k i) k = some i := by
  simp [getDbInstance, storePut, List.find?]

theorem getDbInstance_storePut_other (store : Store) (k k' : String)
    (i : InstanceInfo) (h : k' ≠ k) :
    getDbInstance (storePut store k i) k' = getDbInstance store k' := by
  simp [getDbInstance, storePut, List.find?, Ne.symm h]

/-! ## Helper-function lemmas (slice.go) -/

theorem mem_appendIfNotExists (l : List String) (a x : String) :
    x ∈ AppendIfNotExists l a ↔ x ∈ l ∨ x = a := by
  by_cases h : a ∈ l
  · simp only [AppendIfNotExists, if_pos h]
    constructor
    · exact Or.inl
    · rintro (hx | rfl)
      · exact hx
      · exact h
  · simp [AppendIfNotExists, if_neg h]

theorem nodup_appendIfNotExists (l : List String) (a : String) (h : l.Nodup) :
    (AppendIfNotExists l a).Nodup := by
  by_cases ha : a ∈ l
  · simpa [AppendIfNotExists, if_pos ha] using h
  · simp [AppendIfNotExists, if_neg ha, List.nodup_append, h, ha]

theorem mem_foldl_appendIfNotExists (uids : List String) (l : List String) (x : String) :
    x ∈ uids.foldl AppendIfNotExists l ↔ x ∈ l ∨ x ∈ uids := by
  induction uids generalizing l with
  | nil => simp
  | cons u us ih =>
    rw [List.foldl_cons, ih (AppendIfNotExists l u)]
    simp [mem_appendIfNotExists]
    tauto

theorem nodup_foldl_appendIfNotExists (uids : List String) (l : List String)
    (h : l.Nodup) : (uids.foldl AppendIfNotExists l).Nodup := by
  induction uids generalizing l with
  | nil => exact h
  | cons u us ih => exact ih _ (nodup_appendIfNotExists l u h)

theorem mem_removeElements (source remove : List String) (x : String) :
    x ∈ RemoveElements source remove ↔ x ∈ source ∧ x ∉ remove := by
  simp [RemoveElements, List.mem_filter]

theorem removeElements_idem (source remove : List String) :
    RemoveElements (RemoveElements source remove) remove =
      RemoveElements source remove := by
  simp [RemoveElements, List.filter_filter]

/-! ## Handler characterization lemmas -/

theorem handleConnectionEvent_some (now : Nat) (store : Store)
    (ev : ConnectionEventMessage) (inst : InstanceInfo) (e : EdgegapInstanceInfo)
    (hget : getDbInstance store ev.instanceId = some inst)
    (he : inst.edgegap = some e) :
    handleConnectionEvent now store ev =
      (Except.ok "ok",
       storePut store inst.id
         (syncedRecord (withLedger inst (connApplied e ev.connections now))
           (connApplied e ev.connections now))) := by
  have hup := updateDbInstance_some store
    (withLedger inst (connApplied e ev.connections now))
    (connApplied e ev.connections now) rfl
  simp only [handleConnectionEvent, hget, ExtractEdgegapInstance, he]
  rw [show ({ inst with
      edgegap := some { e with
        reservations := RemoveElements e.reservations ev.connections
        connections := ev.connections
        reservationsUpdatedAt := now } } : InstanceInfo) =
    withLedger inst (connApplied e ev.connections now) from rfl]
  rw [hup]
  rfl

theorem handleConnectionEvent_ok_inv (now : Nat) (store : Store)
    (ev : ConnectionEventMessage) (m : String) (store1 : Store)
    (h : handleConnectionEvent now store ev = (Except.ok m, store1)) :
    ∃ inst e, getDbInstance store ev.instanceId = some inst ∧
      inst.edgegap = some e ∧
      store1 = storePut store inst.id
        (syncedRecord (withLedger inst (connApplied e ev.connections now))
          (connApplied e ev.connections now)) := by
  rcases hget : getDbInstance store ev.instanceId with _ | inst
  · simp [handleConnectionEvent, hget] at h
  · rcases he : inst.edgegap with _ | e
    · simp [handleConnectionEvent, hget, ExtractEdgegapInstance, he] at h
    · refine ⟨inst, e, rfl, he, ?_⟩
      rw [handleConnectionEvent_some now store ev inst e hget he] at h
      exact (Prod.mk.injEq _ _ _ _ ▸ h).2.symm

theorem updateDbInstance_ok_inv (store : Store) (inst : InstanceInfo)
    (r : Store × InstanceInfo) (h : updateDbInstance store inst = Except.ok r) :
    ∃ e, inst.edgegap = some e ∧ r.2 = syncedRecord inst e ∧
      r.1 = storePut store inst.id (syncedRecord inst e) := by
  rcases he : inst.edgegap with _ | e
  · rw [updateDbInstance, syncInstance_none inst he] at h
    exact absurd h (by simp)
  · rw [updateDbInstance_some store inst e he] at h
    injection h with h1
    exact ⟨e, rfl, by rw [← h1], by rw [← h1]⟩

/-- Claim C7: for every instance and every connection report, after the
report is applied no user id is simultaneously a member of the ledger's
reservations and of its connections — every id listed in the report's
connection set is removed from the reservations. -/
theorem connection_report_clears_reservations
    (now : Nat) (store : Store) (ev : ConnectionEventMessage) (m : String)
    (store1 : Store) (h : handleConnectionEvent now store ev = (Except.ok m, store1))
    (inst : InstanceInfo) (hg : getDbInstance store ev.instanceId = some inst)
    (hid : inst.id = ev.instanceId) (inst1 : InstanceInfo)
    (hg1 : getDbInstance store1 ev.instanceId = some inst1)
    (e1 : EdgegapInstanceInfo) (he1 : inst1.edgegap = some e1) :
    ∀ u, u ∈ e1.connections → u ∉ e1.reservations := by
  obtain ⟨inst', e', hg', he', hstore⟩ := handleConnectionEvent_ok_inv now store ev m store1 h
  rw [hg] at hg'
  injection hg' with hii
  subst hii
  subst hstore
  rw [hid, getDbInstance_storePut_same] at hg1
  injection hg1 with hi1
  subst hi1
  simp only [syncedRecord, withLedger, connApplied, Option.some.injEq] at he1
  subst he1
  intro u hu hr
  simp only [List.mem_filter] at hr
  exact absurd (mem_removeElements _ _ u |>.mp (by simpa using hr)).2 (fun hn => hn hu)

/-- Claim C8: applying the same connection report twice in succession leaves
the same reservations and connections in the persisted ledger as applying it
once. -/
theorem connection_report_idempotent
    (now1 now2 : Nat) (store : Store) (ev : ConnectionEventMessage) (m : String)
    (store1 : Store) (h : handleConnectionEvent now1 store ev = (Except.ok m, store1))
    (inst : InstanceInfo) (hg : getDbInstance store ev.instanceId = some inst)
    (hid : inst.id = ev.instanceId) :
    storedReservations (handleConnectionEvent now2 store1 ev).2 ev.instanceId =
      storedReservations store1 ev.instanceId ∧
    storedConnections (handleConnectionEvent now2 store1 ev).2 ev.instanceId =
      storedConnections store1 ev.instanceId := by
  obtain ⟨inst', e', hg', he', hstore⟩ :=
    handleConnectionEvent_ok_inv now1 store ev m store1 h
  rw [hg] at hg'
  injection hg' with hii
  subst hii
  subst hstore
  have hg1 : getDbInstance
      (storePut store inst.id
        (syncedRecord (withLedger inst (connApplied e' ev.connections now1))
          (connApplied e' ev.connections now1))) ev.instanceId =
      some (syncedRecord (withLedger inst (connApplied e' ev.connections now1))
        (connApplied e' ev.connections now1)) := by
    rw [← hid]
    exact getDbInstance_storePut_same _ _ _
  rw [handleConnectionEvent_some now2 _ ev _ _ hg1 rfl]
  simp only [storedReservations, storedConnections, hg1, getDbInstance_storePut_same,
    ← hid, syncedRecord, withLedger, connApplied]
  simp [removeElements_idem]

/-- Claim C9: the connection-event handler leaves the instance's status, id,
createTime and connectionInfo unchanged (as well as the free-form metadata
and the ledger's maxPlayers and callbackId); it mutates only the
reservations, connections, reservationsUpdatedAt and the derived
playerCount, availableSeats and reservationsCount. -/
theorem connection_event_preserves_status
    (now : Nat) (store : Store) (ev : ConnectionEventMessage) (m : String)
    (store1 : Store) (h : handleConnectionEvent now store ev = (Except.ok m, store1))
    (inst : InstanceInfo) (hg : getDbInstance store ev.instanceId = some inst)
    (hid : inst.id = ev.instanceId) (inst1 : InstanceInfo)
    (hg1 : getDbInstance store1 ev.instanceId = some inst1) :
    inst1.status = inst.status ∧ inst1.id = inst.id ∧
    inst1.createTime = inst.createTime ∧
    inst1.connectionInfo = inst.connectionInfo ∧
    inst1.metadataOther = inst.metadataOther ∧
    (∀ e e1, inst.edgegap = some e → inst1.edgegap = some e1 →
      e1.maxPlayers = e.maxPlayers ∧ e1.callbackId = e.callbackId) := by
  obtain ⟨inst', e', hg', he', hstore⟩ := handleConnectionEvent_ok_inv now store ev m store1 h
  rw [hg] at hg'
  injection hg' with hii
  subst hii
  subst hstore
  rw [hid, getDbInstance_storePut_same] at hg1
  injection hg1 with hi1
  subst hi1
  refine ⟨rfl, rfl, rfl, rfl, rfl, ?_⟩
  intro e e1 hee hee1
  rw [he'] at hee
  injection hee with hee
  subst hee
  simp only [syncedRecord, withLedger, connApplied, Option.some.injEq] at hee1
  subst hee1
  exact ⟨rfl, rfl⟩

/-- joinApplied is the ledger after Join's reservation mutation: each
requested id appended to the reservations with de-duplication. -/
def joinApplied (e : EdgegapInstanceInfo) (uids : List String) : EdgegapInstanceInfo :=
  { e with reservations := uids.foldl AppendIfNotExists e.reservations }

theorem join_cases (store : Store) (id : String) (uids : List String)
    (inst : InstanceInfo) (e : EdgegapInstanceInfo)
    (hg : getDbInstance store id = some inst) (he : inst.edgegap = some e)
    (hid : id ≠ "") (hu : 1 ≤ uids.length) (hmp : 0 ≤ e.maxPlayers) :
    (e.maxPlayers < inst.playerCount + e.reservations.length + uids.length →
      Join store id uids =
        (JoinResult.err "max players reservation limit reached", store)) ∧
    (inst.playerCount + e.reservations.length + uids.length ≤ e.maxPlayers →
      Join store id uids =
        (JoinResult.ok (syncedRecord (withLedger inst (joinApplied e uids))
            (joinApplied e uids)),
         storePut store inst.id (syncedRecord (withLedger inst (joinApplied e uids))
            (joinApplied e uids)))) := by
  have hu' : ¬ uids.length < 1 := by omega
  have hmp' : ¬ e.maxPlayers < 0 := by omega
  have hup := updateDbInstance_some store (withLedger inst (joinApplied e uids))
    (joinApplied e uids) rfl
  constructor
  · intro hover
    have hcap : inst.playerCount + (e.reservations.length : Int)
        + uids.length > e.maxPlayers := by omega
    simp only [Join, if_neg hid, if_neg hu', hg, ExtractEdgegapInstance, he,
      if_neg hmp', if_pos hcap]
  · intro hle
    have hcap : ¬ inst.playerCount + (e.reservations.length : Int)
        + uids.length > e.maxPlayers := by omega
    simp only [Join, if_neg hid, if_neg hu', hg, ExtractEdgegapInstance, he,
      if_neg hmp', if_neg hcap]
    rw [show ({ inst with
        edgegap := some { e with
          reservations := uids.foldl AppendIfNotExists e.reservations } } :
        InstanceInfo) = withLedger inst (joinApplied e uids) from rfl]
    rw [hup]
    rfl

/-- Claim C3 (amended): for a Join on an existing instance with a
non-negative maxPlayers, the capacity check counts the request's user-id
list by raw length — duplicates within the request and ids already reserved
included — so the join succeeds exactly when playerCount + |reservations| +
|userIds| fits within maxPlayers; on success each distinct id still occupies
exactly one reservation seat (ids are appended with de-duplication). -/
theorem join_capacity_counts_request_multiplicity
    (store : Store) (id : String) (uids : List String) (inst : InstanceInfo)
    (e : EdgegapInstanceInfo) (hg : getDbInstance store id = some inst)
    (he : inst.edgegap = some e) (hid : id ≠ "") (hu : 1 ≤ uids.length)
    (hmp : 0 ≤ e.maxPlayers) :
    ((Join store id uids).1.isOk = true ↔
      inst.playerCount + e.reservations.length + uids.length ≤ e.maxPlayers) ∧
    (inst.playerCount + e.reservations.length + uids.length ≤ e.maxPlayers →
      storedReservations (Join store id uids).2 inst.id =
        some (uids.foldl AppendIfNotExists e.reservations)) ∧
    (e.reservations.Nodup → (uids.foldl AppendIfNotExists e.reservations).Nodup) ∧
    (∀ u, u ∈ uids.foldl AppendIfNotExists e.reservations ↔
      u ∈ e.reservations ∨ u ∈ uids) := by
  obtain ⟨hover, hok⟩ := join_cases store id uids inst e hg he hid hu hmp
  refine ⟨?_, ?_, nodup_foldl_appendIfNotExists uids e.reservations,
    mem_foldl_appendIfNotExists uids e.reservations⟩
  · constructor
    · intro hisOk
      by_contra hgt
      rw [hover (by omega)] at hisOk
      simp [JoinResult.isOk] at hisOk
    · intro hle
      rw [hok hle]
      rfl
  · intro hle
    rw [hok hle]
    simp only [storedReservations, getDbInstance_storePut_same, Option.bind_some]
    rfl

/-- Claim C1 (amended): immediately after each persistence-bound operation —
createDbInstance's initial record build, Join's reservation update, and a
connection-report application — the cached availableSeats equals maxPlayers
minus the reservations minus the connections when maxPlayers is strictly
positive, and equals -1 when maxPlayers ≤ 0 (the source treats 0 as "not
set", not as a zero-capacity bound). -/
theorem seat_formula_after_persist :
    (∀ now store id mp uids cb md out,
      createDbInstance now store id mp uids cb md = Except.ok out →
      seatFormulaOk out.2 = true ∧ getDbInstance out.1 id = some out.2) ∧
    (∀ store id uids res store1,
      Join store id uids = (JoinResult.ok res, store1) →
      store1 = store ∨ seatFormulaOk res = true) ∧
    (∀ now store ev m store1,
      handleConnectionEvent now store ev = (Except.ok m, store1) →
      ∀ k inst1, getDbInstance store1 k = some inst1 →
        getDbInstance store k = some inst1 ∨ seatFormulaOk inst1 = true) := by
  refine ⟨?_, ?_, ?_⟩
  · intro now store id mp uids cb md out h
    rw [createDbInstance] at h
    rw [syncInstance_some _ _ rfl] at h
    injection h with h
    subst h
    exact ⟨seatFormulaOk_syncedRecord _ _, getDbInstance_storePut_same _ _ _⟩
  · intro store id uids res store1 h
    simp only [Join] at h
    split at h
    · simp at h
    · split at h
      · simp at h
      · split at h
        · simp at h
        · split at h
          · simp at h
          · split at h
            · injection h with h1 h2
              exact Or.inl h2.symm
            · split at h
              · simp at h
              · split at h
                · simp at h
                · rename_i r heq
                  injection h with h1 h2
                  injection h1 with h1
                  obtain ⟨e, _, hr2, _⟩ := updateDbInstance_ok_inv _ _ _ heq
                  rw [← h1, hr2]
                  exact Or.inr (seatFormulaOk_syncedRecord _ _)
  · intro now store ev m store1 h k inst1 hg1
    obtain ⟨inst, e, hg, he, hstore⟩ := handleConnectionEvent_ok_inv now store ev m store1 h
    subst hstore
    by_cases hk : k = inst.id
    · subst hk
      rw [getDbInstance_storePut_same] at hg1
      injection hg1 with hg1
      subst hg1
      exact Or.inr (seatFormulaOk_syncedRecord _ _)
    · rw [getDbInstance_storePut_other _ _ _ _ hk] at hg1
      exact Or.inl hg1

/-- Claim C6 (amended): Update overwrites the loaded record's playerCount
with the caller-supplied value, but the persistence path's SyncInstance
recomputes playerCount from the ledger's connections before the write, so
the value actually persisted is the instance's connection count, not the
caller-supplied overwrite. -/
theorem update_persists_connection_count
    (store : Store) (id : String) (pc : Int) (inst : InstanceInfo)
    (e : EdgegapInstanceInfo) (hg : getDbInstance store id = some inst)
    (he : inst.edgegap = some e) :
    (Update store id pc).1 = UpdateResult.ok ∧
    storedPlayerCount (Update store id pc).2 inst.id =
      some e.connections.length := by
  have hup := updateDbInstance_some store { inst with playerCount := pc } e he
  simp only [Update, hg, hup]
  refine ⟨trivial, ?_⟩
  simp only [storedPlayerCount]
  rw [show ({ inst with playerCount := pc } : InstanceInfo).id = inst.id from rfl,
    getDbInstance_storePut_same]
  rfl

/-- deployBadState_some characterizes the badState block on a record whose
ledger is present: it resolves the callback with an error and persists the
synced record. -/
theorem deployBadState_some (store : Store) (reg : CallbackRegistry)
    (inst1 : InstanceInfo) (e : EdgegapInstanceInfo) (he : inst1.edgegap = some e) :
    deployBadState store reg inst1 =
      (Except.ok "ok", storePut store inst1.id (syncedRecord inst1 e),
       InvokeCallback reg e.callbackId FmCreateStatus.createError) := by
  simp only [deployBadState, ExtractEdgegapInstance, he,
    updateDbInstance_some store inst1 e he]

/-- Claim C10: a deployment-status report whose currentStatus is neither the
Ready value nor the Error value takes the default branch — the instance's
status is persisted as UNKNOWN and, because badState covers every non-Ready
status, the create callback is still resolved with an Error outcome. -/
theorem unknown_deployment_status_resolves_error_callback
    (portName : String) (store : Store) (reg : CallbackRegistry)
    (d : EdgegapDeploymentStatus) (inst : InstanceInfo) (e : EdgegapInstanceInfo)
    (hg : getDbInstance store d.requestId = some inst) (hid : inst.id = d.requestId)
    (he : inst.edgegap = some e)
    (hnr : d.currentStatus ≠ DeploymentStatusReady)
    (hne : d.currentStatus ≠ DeploymentStatusError) :
    (handleDeploymentEvent portName store reg d).1 = Except.ok "ok" ∧
    storedStatus (handleDeploymentEvent portName store reg d).2.1 d.requestId =
      some EdgegapStatusUnknown ∧
    (handleDeploymentEvent portName store reg d).2.2 =
      InvokeCallback reg e.callbackId FmCreateStatus.createError := by
  have he1 : ({ inst with status := EdgegapStatusUnknown } : InstanceInfo).edgegap =
      some e := he
  simp only [handleDeploymentEvent, hg, if_neg hnr, if_neg hne,
    deployBadState_some store reg _ e he1]
  refine ⟨trivial, ?_, trivial⟩
  simp only [storedStatus]
  rw [show ({ inst with status := EdgegapStatusUnknown } : InstanceInfo).id = inst.id
    from rfl, hid, getDbInstance_storePut_same]
  rfl

/-! ## Callback exactly-once machinery -/

theorem invokeCallback_measure (reg : CallbackRegistry) (id : String)
    (st : FmCreateStatus) (cbId : String) :
    invocationsFor (InvokeCallback reg id st) cbId
        + pendingCount (InvokeCallback reg id st) cbId
      ≤ invocationsFor reg cbId + pendingCount reg cbId := by
  unfold InvokeCallback
  by_cases h : id ∈ reg.pending
  · rw [if_pos h]
    by_cases he : cbId = id
    · subst he
      have hp : 1 ≤ pendingCount reg cbId := by
        have hm : cbId ∈ reg.pending.filter (fun s => decide (s = cbId)) :=
          List.mem_filter.mpr ⟨h, by simp⟩
        exact List.length_pos.mpr (List.ne_nil_of_mem hm)
      have hz : ((reg.pending.filter (fun s => decide (s ≠ cbId))).filter
          (fun s => decide (s = cbId))).length = 0 := by
        rw [List.length_eq_zero, List.filter_filter]
        apply List.filter_eq_nil_iff.mpr
        intro a _
        by_cases ha : a = cbId <;> simp [ha]
      unfold invocationsFor pendingCount
      simp only [List.filter_append, List.length_append]
      simp only [pendingCount] at hp
      simp only [hz]
      simp
      omega
    · unfold invocationsFor pendingCount
      simp only [List.filter_append, List.length_append]
      have h1 : ([(id, st)].filter (fun p => decide (p.1 = cbId))).length = 0 := by
        simp [Ne.symm he]
      have h2 : (reg.pending.filter (fun s => decide (s ≠ id))).filter
          (fun s => decide (s = cbId)) =
          reg.pending.filter (fun s => decide (s = cbId)) := by
        rw [List.filter_filter]
        apply List.filter_congr
        intro a _
        by_cases ha : a = cbId
        · subst ha
          simp [he]
        · simp [ha]
      rw [h1, h2]
      omega
  · rw [if_neg h]

theorem deployBadState_measure (store : Store) (reg : CallbackRegistry)
    (inst1 : InstanceInfo) (cbId : String) :
    invocationsFor (deployBadState store reg inst1).2.2 cbId
        + pendingCount (deployBadState store reg inst1).2.2 cbId
      ≤ invocationsFor reg cbId + pendingCount reg cbId := by
  unfold deployBadState
  split
  · exact le_refl _
  · split
    · exact invokeCallback_measure reg _ _ cbId
    · exact invokeCallback_measure reg _ _ cbId

theorem handleDeploymentEvent_measure (portName : String) (store : Store)
    (reg : CallbackRegistry) (d : EdgegapDeploymentStatus) (cbId : String) :
    invocationsFor (handleDeploymentEvent portName store reg d).2.2 cbId
        + pendingCount (handleDeploymentEvent portName store reg d).2.2 cbId
      ≤ invocationsFor reg cbId + pendingCount reg cbId := by
  rcases hget : getDbInstance store d.requestId with _ | inst
  · simp [handleDeploymentEvent, hget]
  · simp only [handleDeploymentEvent, hget]
    by_cases h1 : d.currentStatus = DeploymentStatusReady
    · simp only [if_pos h1]
      split
      · exact le_refl _
      · exact le_refl _
    · by_cases h2 : d.currentStatus = DeploymentStatusError
      · simp only [if_neg h1, if_pos h2]
        exact deployBadState_measure store reg _ cbId
      · simp only [if_neg h1, if_neg h2]
        exact deployBadState_measure store reg _ cbId

theorem handleInstanceEvent_measure (store : Store) (reg : CallbackRegistry)
    (iev : InstanceEventMessage) (cbId : String) :
    invocationsFor (handleInstanceEvent store reg iev).2.2 cbId
        + pendingCount (handleInstanceEvent store reg iev).2.2 cbId
      ≤ invocationsFor reg cbId + pendingCount reg cbId := by
  rcases hget : getDbInstance store iev.instanceId with _ | inst
  · simp [handleInstanceEvent, hget]
  · simp only [handleInstanceEvent, hget]
    by_cases h1 : asciiUpper iev.action = InstanceEventStateReady
    · simp only [if_pos h1]
      split
      · exact le_refl _
      · split
        · exact invokeCallback_measure reg _ _ cbId
        · exact invokeCallback_measure reg _ _ cbId
    · by_cases h2 : asciiUpper iev.action = InstanceEventStateStop
      · simp only [if_neg h1, if_pos h2]
        split
        · exact le_refl _
        · exact le_refl _
      · by_cases h3 : asciiUpper iev.action = InstanceEventStateError
        · simp only [if_neg h1, if_neg h2, if_pos h3]
          split
          · exact le_refl _
          · exact le_refl _
        · simp only [if_neg h1, if_neg h2, if_neg h3]
          split
          · exact le_refl _
          · exact le_refl _

theorem stepEvent_measure (portName : String) (s : Store × CallbackRegistry)
    (ev : InboundEvent) (cbId : String) :
    invocationsFor (stepEvent portName s ev).2 cbId
        + pendingCount (stepEvent portName s ev).2 cbId
      ≤ invocationsFor s.2 cbId + pendingCount s.2 cbId := by
  cases ev with
  | deployment d => exact handleDeploymentEvent_measure portName s.1 s.2 d cbId
  | connection c now => exact le_refl _
  | instanceAct i => exact handleInstanceEvent_measure s.1 s.2 i cbId

theorem runEvents_measure (portName : String) (evs : List InboundEvent)
    (s : Store × CallbackRegistry) (cbId : String) :
    invocationsFor (runEvents portName s evs).2 cbId
        + pendingCount (runEvents portName s evs).2 cbId
      ≤ invocationsFor s.2 cbId + pendingCount s.2 cbId := by
  induction evs generalizing s with
  | nil => exact le_refl _
  | cons ev evs ih =>
    exact le_trans (ih (stepEvent portName s ev)) (stepEvent_measure portName s ev cbId)

/-- Claim C2: for a registered create callback id, across any sequence of
inbound events — in particular a fabric deployment-error report followed by
an instance-ready report for the same instance — the registered handler is
invoked at most once; a second resolution attempt is a safe no-op because
resolving discards the pending handler. The hypothesis states that the id
has one registered, not-yet-invoked handler. -/
theorem callback_resolved_at_most_once (portName : String) (store : Store)
    (reg : CallbackRegistry) (cbId : String) (evs : List InboundEvent)
    (hreg : invocationsFor reg cbId + pendingCount reg cbId ≤ 1) :
    invocationsFor (runEvents portName (store, reg) evs).2 cbId ≤ 1 :=
  le_trans (Nat.le_add_right _ _)
    (le_trans (runEvents_measure portName evs (store, reg) cbId) hreg)

/-! ## Concrete scenarios: counterexamples, failing inputs and witnesses -/

/-- Claim C1 counterexample: createDbInstance with maxPlayers = 0 — which is
covered by the claim's "maxPlayers >= 0" reading — builds a record whose
cached availableSeats is -1, not 0 - 0 - 0 = 0: the source's seat formula
applies only to a strictly positive maxPlayers. -/
theorem create_maxPlayers_zero_reports_unlimited :
    ((createDbInstance 0 [] "d-1" 0 [] "cb-1" []).toOption.bind
      (fun r => r.2.edgegap.map (fun e => e.availableSeats))) = some (-1) ∧
    ((0 : Int) - 0 - 0 ≠ -1) := by
  decide

def c1out : Store × InstanceInfo :=
  let inst : InstanceInfo :=
    { id := "d-1"
      connectionInfo := none
      createTime := 0
      playerCount := 0
      status := "REQUESTED"
      edgegap := some
        { maxPlayers := 2
          availableSeats := 1
          callbackId := "cb-1"
          reservations := ["a"]
          reservationsCount := 1
          reservationsUpdatedAt := 0
          connections := [] }
      metadataOther := [] }
  ([("d-1", inst)], inst)

/-- Claim C1 witness: the amended seat-formula theorem applied to a concrete
create of a two-seat instance with one reserved user. -/
theorem seat_formula_after_persist_witness :
    seatFormulaOk c1out.2 = true ∧ getDbInstance c1out.1 "d-1" = some c1out.2 :=
  seat_formula_after_persist.1 0 [] "d-1" 2 ["a"] "cb-1" [] c1out rfl

def c2store : Store :=
  [("d-1", mkInstance "d-1" "REQUESTED" 0 (mkLedger 2 2 "cb-1" [] []))]

def c2reg : CallbackRegistry := { pending := ["cb-1"], invocations := [] }

def c2events : List InboundEvent :=
  [InboundEvent.deployment
    { requestId := "d-1", fqdn := "", publicIp := "",
      currentStatus := "Status.ERROR", ports := [] },
   InboundEvent.instanceAct
    { instanceId := "d-1", action := "READY", message := "",
      metadataEdgegap := none, metadataOther := [] }]

/-- Claim C2 witness: a registered callback, a fabric deployment-error report
and then an instance-ready report for the same instance invoke the handler
at most once. -/
theorem callback_resolved_at_most_once_witness :
    invocationsFor (runEvents "game" (c2store, c2reg) c2events).2 "cb-1" ≤ 1 :=
  callback_resolved_at_most_once "game" c2store c2reg "cb-1" c2events (by decide)

/-- In the error-then-ready race the first report wins: the deployment-error
report resolves the callback with the error outcome and the later
instance-ready report's resolution attempt is a no-op, leaving exactly one
invocation. -/
theorem error_then_ready_first_report_wins :
    (runEvents "game" (c2store, c2reg) c2events).2 =
      { pending := [], invocations := [("cb-1", FmCreateStatus.createError)] } := by
  decide

def c3store : Store :=
  [("i-1", mkInstance "i-1" "REQUESTED" 0 (mkLedger 1 0 "cb-1" ["a"] []))]

/-- Claim C3 counterexample: on a one-seat instance whose only reservation is
"a", a join request for the already-reserved "a" adds zero distinct new ids —
the claim's capacity bound holds — yet the source rejects it, because the
capacity check adds the request's raw id count on top of the existing
reservation for the same user. -/
theorem join_rejects_already_reserved_id :
    claimedJoinCapacityOk 0 1 ["a"] ["a"] = true ∧
    (Join c3store "i-1" ["a"]).1 =
      JoinResult.err "max players reservation limit reached" := by
  decide

def c3wledger : EdgegapInstanceInfo := mkLedger 2 1 "cb-1" ["a"] []

def c3winst : InstanceInfo := mkInstance "i-1" "REQUESTED" 0 c3wledger

def c3wstore : Store := [("i-1", c3winst)]

/-- Claim C3 witness: the amended capacity theorem applied to a join of "b"
on a two-seat instance with "a" reserved. -/
theorem join_capacity_counts_request_multiplicity_witness :
    JoinResult.isOk (Join c3wstore "i-1" ["b"]).1 = true ∧
    storedReservations (Join c3wstore "i-1" ["b"]).2 "i-1" = some ["a", "b"] := by
  have h := join_capacity_counts_request_multiplicity c3wstore "i-1" ["b"] c3winst
    c3wledger (by decide) (by decide) (by decide) (by decide) (by decide)
  refine ⟨h.1.mpr (by decide), ?_⟩
  have h2 := h.2.1 (by decide)
  exact h2

def c4reg : CallbackRegistry := { pending := [], invocations := [] }

/-- Claim C4 failing input: a Create whose user-IP resolution succeeds with
no addresses while the request context carries no client IP returns
ErrInvalidInput with the registered callback still pending and never
invoked — the only failure branch after registration that does not resolve
the callback with an Error outcome. -/
theorem create_missing_caller_ip_leaves_callback_pending :
    Create 0 [] c4reg 2 ["u-1"] [] "cb-1" (Except.ok []) none
        (Except.ok { requestId := "d-1", message := "" }) true =
      (CreateResult.err "input is invalid", [],
       { pending := ["cb-1"], invocations := [] }) := by
  decide

/-- Claim C5 failing input: a Join against an id with no stored record gets a
nil instance together with a nil error from the storage read, so the
source's instance-not-found branch is skipped and ExtractEdgegapInstance
dereferences the nil instance pointer — a crash, not the claimed
"instance not found" error. -/
theorem join_missing_instance_nil_deref :
    Join [] "ghost" ["u-1"] = (JoinResult.nilDeref, []) := by
  decide

def c6ledger : EdgegapInstanceInfo := mkLedger 5 2 "cb-1" [] ["x", "y"]

def c6inst : InstanceInfo := mkInstance "i-1" "READY" 3 c6ledger

def c6store : Store := [("i-1", c6inst)]

/-- Claim C6 counterexample: overwriting the player count to 5 on an instance
with two connections persists 2, not the caller-supplied 5 — SyncInstance
recomputes playerCount from the connections before the write. -/
theorem update_overwrite_clobbered_by_sync :
    storedPlayerCount (Update c6store "i-1" 5).2 "i-1" = some 2 ∧
    (5 : Int) ≠ 2 := by
  decide

/-- Claim C6 witness: the amended theorem applied to the concrete overwrite. -/
theorem update_persists_connection_count_witness :
    (Update c6store "i-1" 5).1 = UpdateResult.ok ∧
    storedPlayerCount (Update c6store "i-1" 5).2 "i-1" = some 2 := by
  have h := update_persists_connection_count c6store "i-1" 5 c6inst c6ledger
    (by decide) (by decide)
  exact ⟨h.1, h.2⟩

def c7ledger : EdgegapInstanceInfo := mkLedger 2 0 "cb-1" ["a", "b"] []

def c7inst : InstanceInfo := mkInstance "i-1" "READY" 0 c7ledger

def c7store : Store := [("i-1", c7inst)]

def c7ev : ConnectionEventMessage := { instanceId := "i-1", connections := ["a", "b"] }

def c7eAfter : EdgegapInstanceInfo :=
  { maxPlayers := 2
    availableSeats := 0
    callbackId := "cb-1"
    reservations := []
    reservationsCount := 0
    reservationsUpdatedAt := 1
    connections := ["a", "b"] }

def c7instAfter : InstanceInfo :=
  { id := "i-1"
    connectionInfo := none
    createTime := 0
    playerCount := 2
    status := "READY"
    edgegap := some c7eAfter
    metadataOther := [] }

def c7storeAfter : Store := [("i-1", c7instAfter), ("i-1", c7inst)]

/-- Claim C7 witness: after the report listing "a" and "b" as connected is
applied to an instance that had both reserved, "a" no longer sits in the
persisted reservations. -/
theorem connection_report_clears_reservations_witness :
    ("a" : String) ∉ c7eAfter.reservations := by
  have h := connection_report_clears_reservations 1 c7store c7ev "ok" c7storeAfter
    rfl c7inst (by decide) (by decide) c7instAfter (by decide) c7eAfter rfl
  exact h "a" (by decide)

/-- Claim C8 witness: replaying the same connection report over the already
updated store leaves the persisted reservations and connections unchanged. -/
theorem connection_report_idempotent_witness :
    storedReservations (handleConnectionEvent 2 c7storeAfter c7ev).2 "i-1" =
      storedReservations c7storeAfter "i-1" ∧
    storedConnections (handleConnectionEvent 2 c7storeAfter c7ev).2 "i-1" =
      storedConnections c7storeAfter "i-1" := by
  have h := connection_report_idempotent 1 2 c7store c7ev "ok" c7storeAfter
    rfl c7inst (by decide) (by decide)
  exact h

/-- Claim C9 witness: the concrete connection report left the status, id,
create time, connection info and free-form metadata untouched. -/
theorem connection_event_preserves_status_witness :
    c7instAfter.status = c7inst.status ∧ c7instAfter.id = c7inst.id ∧
    c7instAfter.createTime = c7inst.createTime ∧
    c7instAfter.connectionInfo = c7inst.connectionInfo ∧
    c7instAfter.metadataOther = c7inst.metadataOther := by
  have h := connection_event_preserves_status 1 c7store c7ev "ok" c7storeAfter
    rfl c7inst (by decide) (by decide) c7instAfter (by decide)
  exact ⟨h.1, h.2.1, h.2.2.1, h.2.2.2.1, h.2.2.2.2.1⟩

def c10d : EdgegapDeploymentStatus :=
  { requestId := "d-1", fqdn := "", publicIp := "",
    currentStatus := "Status.TERMINATED", ports := [] }

def c10ledger : EdgegapInstanceInfo := mkLedger 2 2 "cb-1" [] []

def c10inst : InstanceInfo := mkInstance "d-1" "REQUESTED" 0 c10ledger

def c10store : Store := [("d-1", c10inst)]

def c10reg : CallbackRegistry := { pending := ["cb-1"], invocations := [] }

/-- Claim C10 witness: a deployment report carrying the out-of-enum status
"Status.TERMINATED" persists UNKNOWN and resolves the callback with the
error outcome. -/
theorem unknown_deployment_status_resolves_error_callback_witness :
    (handleDeploymentEvent "game" c10store c10reg c10d).1 = Except.ok "ok" ∧
    storedStatus (handleDeploymentEvent "game" c10store c10reg c10d).2.1 "d-1" =
      some EdgegapStatusUnknown ∧
    (handleDeploymentEvent "game" c10store c10reg c10d).2.2 =
      InvokeCallback c10reg "cb-1" FmCreateStatus.createError := by
  have h := unknown_deployment_status_resolves_error_callback "game" c10store c10reg
    c10d c10inst c10ledger (by decide) (by decide) (by decide) (by decide) (by decide)
  exact h

end NakamaEdgegap
